import Mathlib

/-!
Verification of the beanstalkd protocol client (`rawx/beanstalk.go`).

The client is embedded shallowly:

* byte sequences on the wire are `List Nat` (each element one octet);
* protocol text lines are Lean `String`s, processed through their
  underlying `List Char`;
* `strconv.FormatUint`/`strconv.Itoa` become the decimal renderer `utoa`;
* `fmt.Sscanf` calls with formats `"LIT %d\r\n"` become explicit scanners
  returning the scanned value together with a success flag (Go sets the
  scanned variable as soon as the `%d` verb succeeds, even when the
  trailing literal of the format fails afterwards);
* each public operation's response handling becomes a pure function from
  the response line (and, for `Reserve`, the remaining byte stream) to an
  outcome datatype whose constructors mirror the Go return paths;
* the reliable-write loop `sendAll` becomes a recursion over an explicit
  list of per-attempt write outcomes;
* Go panics (negative `make` size, negative slice bound) become an
  explicit `panicked` result constructor.
-/

/-- Bytes of an ASCII string, one `Nat` per char, as Go's `[]byte(s)`. -/
def strBytes (s : String) : List Nat := s.data.map Char.toNat

/-- The two-byte line terminator used throughout the protocol. -/
def crlf : List Char := ['\r', '\n']

/-- Decimal digit character, as produced by `strconv` for a digit `< 10`. -/
def digitChar (d : Nat) : Char := Char.ofNat (48 + d)

/-- Is `c` an ASCII decimal digit? (matches Go's `%d` digit test). -/
def isDigitChar (c : Char) : Bool := 48 ≤ c.toNat && c.toNat ≤ 57

/-- Fueled decimal rendering loop, mirroring the divide-by-ten loop of
`strconv.FormatUint` (base 10). The fuel is always sufficient because one
digit is produced per step. -/
def digitsCore : Nat → Nat → List Char → List Char
  | 0, _, acc => acc
  | fuel + 1, n, acc =>
    let d := digitChar (n % 10)
    if n < 10 then d :: acc else digitsCore fuel (n / 10) (d :: acc)

/-- `strconv.FormatUint n 10`: decimal rendering of an unsigned integer. -/
def utoa (n : Nat) : String := ⟨digitsCore (n + 1) n []⟩

/-- `strconv.Itoa`, used by the client only on non-negative lengths. -/
def itoa (n : Nat) : String := utoa n

/-- Non-accumulator decimal digits, used as the specification of
`digitsCore` in proofs. -/
def digitsOfSpec (n : Nat) : List Char :=
  if _h : n < 10 then [digitChar n]
  else digitsOfSpec (n / 10) ++ [digitChar (n % 10)]
termination_by n
decreasing_by
  exact Nat.div_lt_self (Nat.lt_of_lt_of_le (by omega) (Nat.le_refl n)) (by omega)

/-- Strip an expected literal character sequence from the front of a line;
`none` when the line does not start with the literal. -/
def stripLit : List Char → List Char → Option (List Char)
  | [], s => some s
  | _ :: _, [] => none
  | p :: ps, c :: cs => if c = p then stripLit ps cs else none

/-- `strings.HasPrefix resp p`. -/
def leadsWith (resp p : String) : Bool := (stripLit p.data resp.data).isSome

/-- Boolean test used to rewrite `stripLit`-based checks on `List Char`. -/
def leadsWithL (s p : List Char) : Bool := (stripLit p s).isSome

/-- Skip ASCII spaces, as the `" %d"` directives of the scan formats do. -/
def skipSpaces (cs : List Char) : List Char := cs.dropWhile (fun c => c = ' ')

/-- Head-of-line digit test. -/
def headDigit (cs : List Char) : Bool := (cs.head?.map isDigitChar).getD false

/-- Consume leading decimal digits, folding them onto `acc` (the core of
the `%d` verb). -/
def parseNatAux : List Char → Nat → Nat × List Char
  | [], acc => (acc, [])
  | c :: cs, acc =>
    if isDigitChar c then parseNatAux cs (10 * acc + (c.toNat - 48))
    else (acc, c :: cs)

/-- The `%d` verb scanning into an unsigned integer: requires at least one
digit, rejects a sign. -/
def parseNat? (cs : List Char) : Option (Nat × List Char) :=
  if headDigit cs then some (parseNatAux cs 0) else none

/-- The `%d` verb scanning into a signed integer: an optional minus sign
followed by digits. -/
def parseInt? (cs : List Char) : Option (Int × List Char) :=
  match cs with
  | [] => none
  | c :: rest =>
    if c = '-' then (parseNat? rest).map (fun p => (-(p.1 : Int), p.2))
    else (parseNat? (c :: rest)).map (fun p => ((p.1 : Int), p.2))

/-- Outcome of `fmt.Sscanf(resp, lit ++ " %d\r\n", &x)` for an unsigned
target: `val` is the scanned value (left `0` when the `%d` verb itself
fails), `ok` tells whether the whole format matched. -/
structure Scan1 where
  val : Nat
  ok : Bool
deriving DecidableEq, Repr

/-- Scan `lit` then `" %d\r\n"` from a response line. -/
def scanU64After (lit : String) (resp : String) : Scan1 :=
  match stripLit lit.data resp.data with
  | none => ⟨0, false⟩
  | some r =>
    match parseNat? (skipSpaces r) with
    | none => ⟨0, false⟩
    | some (n, r') => ⟨n, leadsWithL r' crlf⟩

/-- Outcome of `fmt.Sscanf(resp, "RESERVED %d %d\r\n", &id, &len)`:
`id` targets a `uint64`, `len` targets a signed `int`. Values are the
scanned ones (left `0` where the corresponding verb failed); `ok` tells
whether the whole format matched. -/
structure Scan2 where
  id : Nat
  len : Int
  ok : Bool
deriving DecidableEq, Repr

/-- Scan the `RESERVED <id> <len>\r\n` response header. -/
def scanReserved (resp : String) : Scan2 :=
  match stripLit "RESERVED".data resp.data with
  | none => ⟨0, 0, false⟩
  | some r =>
    match parseNat? (skipSpaces r) with
    | none => ⟨0, 0, false⟩
    | some (idv, r1) =>
      match parseInt? (skipSpaces r1) with
      | none => ⟨idv, 0, false⟩
      | some (lenv, r2) => ⟨idv, lenv, leadsWithL r2 crlf⟩

/-- The semantic error kinds of the client: the eleven named error
singletons (`errOutOfMemory` .. `errNotFound`) plus the generic
`fmt.Errorf("unknown error: %v", str)` carrying the raw line. -/
inductive BeanstalkError where
  | outOfMemory
  | internalError
  | badFormat
  | unknownCommand
  | buriedErr
  | expectedCrlf
  | jobTooBig
  | draining
  | deadlineSoon
  | timedOut
  | notFound
  | unknown (raw : String)
deriving DecidableEq, Repr

/-- The eleven keys of the Go `errorTable` map. -/
def errorLines : List String :=
  ["OUT_OF_MEMORY\r\n", "INTERNAL_ERROR\r\n", "BAD_FORMAT\r\n",
   "UNKNOWN_COMMAND\r\n", "BURIED\r\n", "EXPECTED_CRLF\r\n",
   "JOB_TOO_BIG\r\n", "DRAINING\r\n", "DEADLINE_SOON\r\n",
   "TIMED_OUT\r\n", "NOT_FOUND\r\n"]

/-- `parseBeanstalkError`: exact lookup of the full line (terminator
included) in `errorTable`; no match yields the generic unknown error
carrying the raw line. -/
def parseBeanstalkError (str : String) : BeanstalkError :=
  if str = "DEADLINE_SOON\r\n" then .deadlineSoon
  else if str = "TIMED_OUT\r\n" then .timedOut
  else if str = "EXPECTED_CRLF\r\n" then .expectedCrlf
  else if str = "JOB_TOO_BIG\r\n" then .jobTooBig
  else if str = "DRAINING\r\n" then .draining
  else if str = "BURIED\r\n" then .buriedErr
  else if str = "NOT_FOUND\r\n" then .notFound
  else if str = "OUT_OF_MEMORY\r\n" then .outOfMemory
  else if str = "INTERNAL_ERROR\r\n" then .internalError
  else if str = "BAD_FORMAT\r\n" then .badFormat
  else if str = "UNKNOWN_COMMAND\r\n" then .unknownCommand
  else .unknown str

/-- `defaultPriority uint64 = 1 << 31`. -/
def defaultPriority : Nat := 1 <<< 31

/-- `defaultTTR uint64 = 120`. -/
def defaultTTR : Nat := 120

/-- A reserved job: server-assigned id plus opaque payload bytes. -/
structure Job where
  ID : Nat
  Data : List Nat
deriving DecidableEq, Repr

/-- The byte sequence `Put` hands to `sendAll`: each list element mirrors
one `WriteString`/`WriteRune`/`Write` call on the command builder. -/
def putCommand (data : List Nat) : List Nat :=
  strBytes "put " ++ strBytes (utoa defaultPriority) ++ strBytes " 0 "
    ++ strBytes (utoa defaultTTR) ++ strBytes " " ++ strBytes (itoa data.length)
    ++ strBytes "\r\n" ++ data ++ strBytes "\r\n"

/-- The two return paths of the `Put` response `switch`, plus the two
error returns: `(id, nil)`, `(id, scan error)`, `(id, errBuried)`,
`(0, parseBeanstalkError resp)`. -/
inductive PutOutcome where
  | inserted (id : Nat)
  | scanFail (id : Nat)
  | buried (id : Nat)
  | classified (e : BeanstalkError)
deriving DecidableEq, Repr

/-- Response handling of `Put`: dispatch on the prefixes `"IN"` and
`"BU"`, scan the success patterns, classify anything else. -/
def putHandleResp (resp : String) : PutOutcome :=
  if leadsWith resp "IN" then
    let s := scanU64After "INSERTED" resp
    if s.ok then .inserted s.val else .scanFail s.val
  else if leadsWith resp "BU" then
    .buried (scanU64After "BURIED" resp).val
  else .classified (parseBeanstalkError resp)

/-- Return paths of `Kick`: `(n, nil)`, `(n, scan error)`,
`(0, parseBeanstalkError resp)`. -/
inductive KickOutcome where
  | kicked (n : Nat)
  | scanFail (n : Nat)
  | classified (e : BeanstalkError)
deriving DecidableEq, Repr

/-- Response handling of `Kick`: dispatch on the prefix `"KICKED"`. -/
def kickHandleResp (resp : String) : KickOutcome :=
  if leadsWith resp "KICKED" then
    let s := scanU64After "KICKED" resp
    if s.ok then .kicked s.val else .scanFail s.val
  else .classified (parseBeanstalkError resp)

/-- `sendCommandAndCheck`'s comparison of the response with the expected
literal: `none` is success, mismatch classifies the response. -/
def checkResp (expected resp : String) : Option BeanstalkError :=
  if resp = expected then none else some (parseBeanstalkError resp)

/-- Command sent by `Use`. -/
def useCommand (tubename : String) : String := "use " ++ tubename ++ "\r\n"

/-- Expected response of `Use`: `fmt.Sprintf("USING %s\r\n", tubename)`. -/
def useExpected (tubename : String) : String := "USING " ++ tubename ++ "\r\n"

/-- Response handling of `Use`. -/
def useCheck (tubename resp : String) : Option BeanstalkError :=
  checkResp (useExpected tubename) resp

/-- Command sent by `Delete`. -/
def deleteCommand (id : Nat) : String := "delete " ++ utoa id ++ "\r\n"

/-- Command sent by `Bury`: `fmt.Sprintf("bury %d %d\r\n", id, defaultPriority)`. -/
def buryCommand (id : Nat) : String :=
  "bury " ++ utoa id ++ " " ++ utoa defaultPriority ++ "\r\n"

/-- Command sent by `Release`:
`fmt.Sprintf("release %d %d %d\r\n", id, defaultPriority, 0)`. -/
def releaseCommand (id : Nat) : String :=
  "release " ++ utoa id ++ " " ++ utoa defaultPriority ++ " " ++ utoa 0 ++ "\r\n"

/-- Command sent by `KickJob`. -/
def kickJobCommand (id : Nat) : String := "kick-job " ++ utoa id ++ "\r\n"

/-- Result of `readData`: Go panic (negative `make` size or negative
slice bound), `io.ReadFull` failure, or the stripped payload together
with the bytes left unconsumed in the stream. -/
inductive ReadDataResult where
  | panicked
  | failed
  | ok (payload : List Nat) (rest : List Nat)
deriving DecidableEq, Repr

/-- `readData(dataLen)` over the buffered stream:
`data := make([]byte, dataLen+2)` (panics when the size is negative),
`io.ReadFull` of exactly that many bytes (fails when the stream is
shorter), then `data[:n-2]` (panics when `n-2` is negative). -/
def readData (dataLen : Int) (stream : List Nat) : ReadDataResult :=
  if dataLen + 2 < 0 then .panicked
  else
    let size := (dataLen + 2).toNat
    if stream.length < size then .failed
    else
      let data := stream.take size
      if size < 2 then .panicked
      else .ok (data.take (size - 2)) (stream.drop size)

/-- Return paths of `Reserve`: `(nil, scan error)`, `(job, read error)`,
panic propagated out of `readData`, `(job, nil)` (with the unconsumed
stream kept for framing statements), `(nil, parseBeanstalkError resp)`. -/
inductive ReserveResult where
  | scanErr
  | readErr (id : Nat)
  | panicked
  | ok (job : Job) (rest : List Nat)
  | classified (e : BeanstalkError)
deriving DecidableEq, Repr

/-- Response handling of `Reserve`: dispatch on the prefix `"RESERVED"`,
scan the header, then `readData` with the scanned length. -/
def reserveHandle (resp : String) (stream : List Nat) : ReserveResult :=
  if leadsWith resp "RESERVED" then
    let s := scanReserved resp
    if s.ok then
      match readData s.len stream with
      | .panicked => .panicked
      | .failed => .readErr s.id
      | .ok payload rest => .ok ⟨s.id, payload⟩ rest
    else .scanErr
  else .classified (parseBeanstalkError resp)

/-- A write error as `sendAll` discriminates it: whether the value
implements `net.Error` and, if so, whether `Temporary()` holds. -/
structure WErr where
  isNet : Bool
  temporary : Bool
deriving DecidableEq, Repr

/-- One outcome of `conn.Write(toWrite)`: bytes accepted plus an optional
error. -/
structure WriteOut where
  n : Nat
  err : Option WErr
deriving DecidableEq, Repr

/-- Result of `sendAll`: full success with the total written, abort with
the offending error and the bytes written so far, the distinct
"No connection to beanstalkd" error, or exhaustion of the modelled
attempt list while the Go loop would keep writing. -/
inductive SendResult where
  | ok (total : Nat)
  | fail (total : Nat) (e : WErr)
  | noConn
  | starved
deriving DecidableEq, Repr

/-- The `for totalWritten < lengthData` loop of `sendAll`, one list
element per `conn.Write` attempt. A non-`net.Error`, or a non-temporary
`net.Error`, aborts; otherwise the written count is added and the buffer
suffix retried. -/
def sendLoop (lengthData totalWritten : Nat) (toWrite : List Nat)
    (outs : List WriteOut) : SendResult :=
  if totalWritten < lengthData then
    match outs with
    | [] => .starved
    | o :: rest =>
      match o.err with
      | some e =>
        if !e.isNet || !e.temporary then .fail totalWritten e
        else sendLoop lengthData (totalWritten + o.n) (toWrite.drop o.n) rest
      | none => sendLoop lengthData (totalWritten + o.n) (toWrite.drop o.n) rest
  else .ok totalWritten

/-- `sendAll`: immediate distinct error when `conn == nil`, else the
write loop starting from an empty written count. -/
def sendAllGo (connPresent : Bool) (data : List Nat) (outs : List WriteOut) :
    SendResult :=
  if connPresent then sendLoop data.length 0 data outs else .noConn

/-- Do the per-attempt outcomes respect the `io.Writer` contract that an
attempt never reports more bytes written than were offered? -/
def validOuts : List Nat → List WriteOut → Bool
  | _, [] => true
  | tw, o :: rest => decide (o.n ≤ tw.length) && validOuts (tw.drop o.n) rest

/-- Observable steps of `Close()`. -/
inductive CloseStep where
  | quitAttempt
  | socketClosed
  | warnLogged
deriving DecidableEq, Repr

/-- `Close()`: send `quit \r\n` discarding the result, then close the
socket when a connection exists, logging (only) any close error; the
caller always gets back no error (the Go function has no return value).
The first component is the ordered step trace, the second the error
surfaced to the caller. -/
def closeModel (connPresent : Bool) (quitOuts : List WriteOut)
    (closeErr : Option WErr) : List CloseStep × Option WErr :=
  let _quitResult := sendAllGo connPresent (strBytes "quit \r\n") quitOuts
  if connPresent then
    match closeErr with
    | some _ => ([.quitAttempt, .socketClosed, .warnLogged], none)
    | none => ([.quitAttempt, .socketClosed], none)
  else ([.quitAttempt], none)

/-! ### Supporting lemmas: decimal rendering and scanning -/

theorem strData_append (a b : String) : (a ++ b).data = a.data ++ b.data := rfl

theorem digitChar_isDigit (d : Nat) (h : d < 10) :
    isDigitChar (digitChar d) = true := by
  interval_cases d <;> decide

theorem digitChar_toNat (d : Nat) (h : d < 10) :
    (digitChar d).toNat = 48 + d := by
  interval_cases d <;> decide

theorem digitsOfSpec_head (n : Nat) :
    ∃ c t, digitsOfSpec n = c :: t ∧ isDigitChar c = true := by
  induction n using Nat.strong_induction_on with
  | _ n ih =>
    by_cases h10 : n < 10
    · refine ⟨digitChar n, [], ?_, digitChar_isDigit n h10⟩
      rw [digitsOfSpec]
      simp [h10]
    · have hd : n / 10 < n := Nat.div_lt_self (by omega) (by omega)
      obtain ⟨c, t, hc, hdig⟩ := ih (n / 10) hd
      refine ⟨c, t ++ [digitChar (n % 10)], ?_, hdig⟩
      rw [digitsOfSpec]
      simp [h10, hc]

theorem digitsCore_eq_spec (fuel : Nat) :
    ∀ (n : Nat) (acc : List Char), n < fuel →
      digitsCore fuel n acc = digitsOfSpec n ++ acc := by
  induction fuel with
  | zero => intro n acc h; omega
  | succ f ih =>
    intro n acc h
    by_cases h10 : n < 10
    · rw [digitsCore, digitsOfSpec]
      simp [h10, Nat.mod_eq_of_lt h10]
    · have hlt : n / 10 < n := Nat.div_lt_self (by omega) (by omega)
      rw [digitsCore]
      simp only [h10, if_false]
      rw [ih (n / 10) (digitChar (n % 10) :: acc) (by omega)]
      conv_rhs => rw [digitsOfSpec]
      simp [h10, List.append_assoc]

theorem utoa_data (n : Nat) : (utoa n).data = digitsOfSpec n := by
  show (digitsCore (n + 1) n []) = digitsOfSpec n
  rw [digitsCore_eq_spec (n + 1) n [] (Nat.lt_succ_self n), List.append_nil]

theorem parseNatAux_stop (cs : List Char) (acc : Nat)
    (h : headDigit cs = false) : parseNatAux cs acc = (acc, cs) := by
  cases cs with
  | nil => rfl
  | cons c t =>
    have h' : isDigitChar c = false := by simpa [headDigit] using h
    simp [parseNatAux, h']

theorem parseNatAux_digits (n : Nat) :
    ∀ (rest : List Char) (acc : Nat),
      parseNatAux (digitsOfSpec n ++ rest) acc
        = parseNatAux rest (acc * 10 ^ (digitsOfSpec n).length + n) := by
  induction n using Nat.strong_induction_on with
  | _ n ih =>
    intro rest acc
    by_cases h10 : n < 10
    · rw [digitsOfSpec]
      simp only [h10, dif_pos, List.cons_append, List.nil_append, parseNatAux,
        digitChar_isDigit n h10, if_true, List.length_singleton]
      rw [digitChar_toNat n h10]
      congr 1
      omega
    · have hlt : n / 10 < n := Nat.div_lt_self (by omega) (by omega)
      conv_lhs => rw [digitsOfSpec]
      simp only [h10, dif_neg, not_false_iff, List.append_assoc,
        List.cons_append, List.nil_append]
      rw [ih (n / 10) hlt (digitChar (n % 10) :: rest) acc]
      have hm : n % 10 < 10 := Nat.mod_lt n (by omega)
      simp only [parseNatAux, digitChar_isDigit (n % 10) hm, if_true]
      rw [digitChar_toNat (n % 10) hm]
      conv_rhs => rw [digitsOfSpec]
      simp only [h10, dif_neg, not_false_iff, List.length_append,
        List.length_singleton]
      congr 1
      have hqr : 10 * (n / 10) + n % 10 = n := Nat.div_add_mod n 10
      have hpow : 10 ^ ((digitsOfSpec (n / 10)).length + 1)
          = 10 ^ (digitsOfSpec (n / 10)).length * 10 := pow_succ 10 _
      generalize (digitsOfSpec (n / 10)).length = L at *
      generalize hq : n / 10 = q at *
      generalize hr : n % 10 = r at *
      rw [hpow]
      generalize 10 ^ L = A at *
      have : acc * (A * 10) = acc * A * 10 := by ring
      rw [this]
      omega

theorem headDigit_digitsOfSpec (n : Nat) (rest : List Char) :
    headDigit (digitsOfSpec n ++ rest) = true := by
  obtain ⟨c, t, hc, hdig⟩ := digitsOfSpec_head n
  rw [hc]
  simp [headDigit, hdig]

theorem parseNat_utoa (n : Nat) (rest : List Char)
    (h : headDigit rest = false) :
    parseNat? ((utoa n).data ++ rest) = some (n, rest) := by
  rw [utoa_data]
  rw [parseNat?, if_pos (headDigit_digitsOfSpec n rest)]
  rw [parseNatAux_digits n rest 0]
  rw [parseNatAux_stop rest _ h]
  simp

theorem isDigit_ne_space (c : Char) (h : isDigitChar c = true) : ¬(c = ' ') := by
  intro he
  subst he
  exact absurd h (by decide)

theorem isDigit_ne_minus (c : Char) (h : isDigitChar c = true) : ¬(c = '-') := by
  intro he
  subst he
  exact absurd h (by decide)

theorem skipSpaces_space (t : List Char) : skipSpaces (' ' :: t) = skipSpaces t := by
  simp [skipSpaces, List.dropWhile_cons]

theorem skipSpaces_headDigit (cs : List Char) (h : headDigit cs = true) :
    skipSpaces cs = cs := by
  cases cs with
  | nil => rfl
  | cons c t =>
    have h' : isDigitChar c = true := by simpa [headDigit] using h
    simp [skipSpaces, List.dropWhile_cons, isDigit_ne_space c h']

theorem parseInt_utoa (n : Nat) (rest : List Char)
    (h : headDigit rest = false) :
    parseInt? ((utoa n).data ++ rest) = some ((n : Int), rest) := by
  rw [utoa_data]
  obtain ⟨c, t, hc, hdig⟩ := digitsOfSpec_head n
  rw [hc, List.cons_append, parseInt?]
  rw [if_neg (isDigit_ne_minus c hdig)]
  rw [← List.cons_append, ← hc, ← utoa_data]
  rw [parseNat_utoa n rest h]
  rfl

theorem stripLit_self_append (p s : List Char) : stripLit p (p ++ s) = some s := by
  induction p with
  | nil => rfl
  | cons c t ih => simp [stripLit, ih]

theorem headDigit_cons_space (t : List Char) : headDigit (' ' :: t) = false := by
  simp [headDigit, isDigitChar]

theorem headDigit_cons_cr (t : List Char) : headDigit ('\r' :: t) = false := by
  simp [headDigit, isDigitChar]

/-- Scanning `lit ++ " %d\r\n"` against `lit ++ " " ++ utoa n ++ "\r\n"`
recovers `n` with full success. -/
theorem scanU64After_roundtrip (lit : String) (n : Nat) :
    scanU64After lit (lit ++ " " ++ utoa n ++ "\r\n") = ⟨n, true⟩ := by
  have hdata : (lit ++ " " ++ utoa n ++ "\r\n").data
      = lit.data ++ (' ' :: ((utoa n).data ++ ['\r', '\n'])) := by
    simp only [strData_append, List.append_assoc]
    congr 1
  have h1 : skipSpaces (' ' :: ((utoa n).data ++ ['\r', '\n']))
      = (utoa n).data ++ ['\r', '\n'] := by
    rw [skipSpaces_space]
    exact skipSpaces_headDigit _ (by rw [utoa_data]; exact headDigit_digitsOfSpec n _)
  have h2 : parseNat? ((utoa n).data ++ ['\r', '\n']) = some (n, ['\r', '\n']) :=
    parseNat_utoa n ['\r', '\n'] (headDigit_cons_cr [])
  simp [scanU64After, hdata, stripLit_self_append, h1, h2, leadsWithL, crlf, stripLit]

/-- Scanning `RESERVED %d %d\r\n` against a well-formed header recovers
both numbers with full success. -/
theorem scanReserved_roundtrip (id len : Nat) :
    scanReserved ("RESERVED " ++ utoa id ++ " " ++ utoa len ++ "\r\n")
      = ⟨id, (len : Int), true⟩ := by
  have hdata : ("RESERVED " ++ utoa id ++ " " ++ utoa len ++ "\r\n").data
      = "RESERVED".data
          ++ (' ' :: ((utoa id).data ++ (' ' :: ((utoa len).data ++ ['\r', '\n'])))) := by
    simp [strData_append, List.append_assoc]
  have h1 : skipSpaces (' ' :: ((utoa id).data ++ (' ' :: ((utoa len).data ++ ['\r', '\n']))))
      = (utoa id).data ++ (' ' :: ((utoa len).data ++ ['\r', '\n'])) := by
    rw [skipSpaces_space]
    exact skipSpaces_headDigit _ (by rw [utoa_data]; exact headDigit_digitsOfSpec id _)
  have h2 : parseNat? ((utoa id).data ++ (' ' :: ((utoa len).data ++ ['\r', '\n'])))
      = some (id, ' ' :: ((utoa len).data ++ ['\r', '\n'])) :=
    parseNat_utoa id _ (headDigit_cons_space _)
  have h3 : skipSpaces (' ' :: ((utoa len).data ++ ['\r', '\n']))
      = (utoa len).data ++ ['\r', '\n'] := by
    rw [skipSpaces_space]
    exact skipSpaces_headDigit _ (by rw [utoa_data]; exact headDigit_digitsOfSpec len _)
  have h4 : parseInt? ((utoa len).data ++ ['\r', '\n']) = some ((len : Int), ['\r', '\n']) :=
    parseInt_utoa len ['\r', '\n'] (headDigit_cons_cr [])
  have hu1 : digitsCore (id + 1) id [] = digitsOfSpec id := utoa_data id
  have hu2 : digitsCore (len + 1) len [] = digitsOfSpec len := utoa_data len
  simp only [utoa_data] at h1 h2 h3 h4
  simp [scanReserved, hdata, stripLit_self_append, hu1, hu2, h1, h2, h3, h4,
    leadsWithL, crlf, stripLit]

theorem strExt (a b : String) (h : a.data = b.data) : a = b := by
  cases a
  cases b
  exact congrArg String.mk (by simpa using h)

theorem leadsWithL_of_append (p s : List Char) : leadsWithL (p ++ s) p = true := by
  simp [leadsWithL, stripLit_self_append]

theorem checkResp_none_iff (expected resp : String) :
    checkResp expected resp = none ↔ resp = expected := by
  by_cases h : resp = expected <;> simp [checkResp, h]

/-- Successful `readData` with a non-negative declared length over a
sufficiently long stream: first `len` bytes returned, `len + 2` consumed. -/
theorem readData_ok (len : Nat) (stream : List Nat)
    (h : len + 2 ≤ stream.length) :
    readData (len : Int) stream = .ok (stream.take len) (stream.drop (len + 2)) := by
  rw [readData, if_neg (by omega)]
  have hsz : ((len : Int) + 2).toNat = len + 2 := by omega
  rw [hsz]
  rw [if_neg (by omega)]
  rw [if_neg (by omega)]
  have ht : (stream.take (len + 2)).take (len + 2 - 2) = stream.take len := by
    rw [List.take_take]
    congr 1
    omega
  rw [ht]

/-- The write loop can only report `ok` with the full length written,
provided each attempt reports no more bytes than it was offered. -/
theorem sendLoop_okLen (outs : List WriteOut) :
    ∀ (L tot t : Nat) (tw : List Nat),
      validOuts tw outs = true → tot + tw.length = L →
      sendLoop L tot tw outs = .ok t → t = L := by
  induction outs with
  | nil =>
    intro L tot t tw _hv hinv hok
    by_cases hlt : tot < L
    · rw [sendLoop, if_pos hlt] at hok
      exact absurd hok (by simp)
    · rw [sendLoop, if_neg hlt] at hok
      have : tot = t := by injection hok
      omega
  | cons o rest ih =>
    intro L tot t tw hv hinv hok
    simp only [validOuts, Bool.and_eq_true, decide_eq_true_eq] at hv
    obtain ⟨hn, hv'⟩ := hv
    have hlen : (tot + o.n) + (tw.drop o.n).length = L := by
      simp only [List.length_drop]
      omega
    by_cases hlt : tot < L
    · rw [sendLoop, if_pos hlt] at hok
      split at hok
      · split at hok
        · exact absurd hok (by simp)
        · exact ih L (tot + o.n) t (tw.drop o.n) hv' hlen hok
      · exact ih L (tot + o.n) t (tw.drop o.n) hv' hlen hok
    · rw [sendLoop, if_neg hlt] at hok
      have : tot = t := by injection hok
      omega

/-! ### Claim theorems -/

/-- C3: the reliable-write loop `sendAll` returns success only once every
byte of the buffer has been accepted (never success with fewer bytes
written, assuming attempts respect the writer contract); a short write
without error, or a transient (temporary net.Error) failure, retries on
the remaining suffix with the written count advanced; a non-transient
error aborts immediately with that error and the count actually written;
and with no connection it fails at once with the distinct no-connection
error, attempting no write. -/
theorem sendAll_reliable_write :
    (∀ (data : List Nat) (outs : List WriteOut) (t : Nat),
        validOuts data outs = true → sendAllGo true data outs = .ok t →
        t = data.length)
    ∧ (∀ (L tot : Nat) (tw : List Nat) (o : WriteOut) (rest : List WriteOut),
        tot < L → o.err = none →
        sendLoop L tot tw (o :: rest) = sendLoop L (tot + o.n) (tw.drop o.n) rest)
    ∧ (∀ (L tot : Nat) (tw : List Nat) (o : WriteOut) (rest : List WriteOut)
        (e : WErr),
        tot < L → o.err = some e → e.isNet = true → e.temporary = true →
        sendLoop L tot tw (o :: rest) = sendLoop L (tot + o.n) (tw.drop o.n) rest)
    ∧ (∀ (L tot : Nat) (tw : List Nat) (o : WriteOut) (rest : List WriteOut)
        (e : WErr),
        tot < L → o.err = some e → (e.isNet = false ∨ e.temporary = false) →
        sendLoop L tot tw (o :: rest) = .fail tot e)
    ∧ (∀ (data : List Nat) (outs : List WriteOut),
        sendAllGo false data outs = .noConn) := by
  refine ⟨?_, ?_, ?_, ?_, ?_⟩
  · intro data outs t hv hok
    rw [sendAllGo, if_pos rfl] at hok
    exact sendLoop_okLen outs data.length 0 t data hv (by simp) hok
  · intro L tot tw o rest hlt he
    rw [sendLoop, if_pos hlt, he]
  · intro L tot tw o rest e hlt he hnet htemp
    rw [sendLoop, if_pos hlt, he]
    simp [hnet, htemp]
  · intro L tot tw o rest e hlt he habort
    rw [sendLoop, if_pos hlt, he]
    have : (!e.isNet || !e.temporary) = true := by
      rcases habort with h | h <;> simp [h]
    simp [this]
  · intro data outs
    rw [sendAllGo, if_neg (by simp)]

/-- Witness for C3 at concrete inputs. -/
theorem sendAll_reliable_write_w :
    (validOuts [5, 6, 7] [⟨3, none⟩] = true
      ∧ sendAllGo true [5, 6, 7] [⟨3, none⟩] = .ok 3
      ∧ 3 = ([5, 6, 7] : List Nat).length)
    ∧ (0 < 3
      ∧ sendLoop 3 0 [5, 6, 7] [⟨2, none⟩] = sendLoop 3 2 ([5, 6, 7].drop 2) [])
    ∧ sendLoop 3 0 [5, 6, 7] [⟨1, some ⟨true, true⟩⟩]
        = sendLoop 3 1 ([5, 6, 7].drop 1) []
    ∧ sendLoop 3 0 [5, 6, 7] [⟨1, some ⟨true, false⟩⟩] = .fail 0 ⟨true, false⟩
    ∧ sendAllGo false [5] [] = .noConn :=
  ⟨⟨by decide, by decide,
    sendAll_reliable_write.1 [5, 6, 7] [⟨3, none⟩] 3 (by decide) (by decide)⟩,
   ⟨by decide, sendAll_reliable_write.2.1 3 0 [5, 6, 7] ⟨2, none⟩ [] (by decide) rfl⟩,
   sendAll_reliable_write.2.2.1 3 0 [5, 6, 7] ⟨1, some ⟨true, true⟩⟩ [] ⟨true, true⟩
     (by decide) rfl rfl rfl,
   sendAll_reliable_write.2.2.2.1 3 0 [5, 6, 7] ⟨1, some ⟨true, false⟩⟩ []
     ⟨true, false⟩ (by decide) rfl (Or.inr rfl),
   sendAll_reliable_write.2.2.2.2 [5] []⟩

/-- C4: the error classifier maps each of the eleven exact literal lines
(terminator included) to its semantic error kind, and every other line to
the generic unknown error whose embedded text equals the raw line. -/
theorem parseBeanstalkError_table :
    (parseBeanstalkError "OUT_OF_MEMORY\r\n" = .outOfMemory
      ∧ parseBeanstalkError "INTERNAL_ERROR\r\n" = .internalError
      ∧ parseBeanstalkError "BAD_FORMAT\r\n" = .badFormat
      ∧ parseBeanstalkError "UNKNOWN_COMMAND\r\n" = .unknownCommand
      ∧ parseBeanstalkError "BURIED\r\n" = .buriedErr
      ∧ parseBeanstalkError "EXPECTED_CRLF\r\n" = .expectedCrlf
      ∧ parseBeanstalkError "JOB_TOO_BIG\r\n" = .jobTooBig
      ∧ parseBeanstalkError "DRAINING\r\n" = .draining
      ∧ parseBeanstalkError "DEADLINE_SOON\r\n" = .deadlineSoon
      ∧ parseBeanstalkError "TIMED_OUT\r\n" = .timedOut
      ∧ parseBeanstalkError "NOT_FOUND\r\n" = .notFound)
    ∧ (∀ s : String, s ∉ errorLines → parseBeanstalkError s = .unknown s) := by
  refine ⟨by decide, ?_⟩
  intro s hs
  simp only [errorLines, List.mem_cons, List.not_mem_nil, or_false, not_or] at hs
  obtain ⟨h1, h2, h3, h4, h5, h6, h7, h8, h9, h10, h11⟩ := hs
  simp [parseBeanstalkError, h1, h2, h3, h4, h5, h6, h7, h8, h9, h10, h11]

/-- Witness for C4 at the unknown line of the spec's example. -/
theorem parseBeanstalkError_table_w :
    "WEIRD\r\n" ∉ errorLines
    ∧ parseBeanstalkError "WEIRD\r\n" = .unknown "WEIRD\r\n" :=
  ⟨by decide, parseBeanstalkError_table.2 "WEIRD\r\n" (by decide)⟩

/-- C9: for a non-negative declared length and a stream of at least
`len + 2` bytes, the payload reader returns exactly the first `len` bytes
and drops the final 2 purely by position; in particular any two trailing
bytes are silently accepted, whatever their values. -/
theorem readData_positional_strip :
    (∀ (len : Nat) (stream : List Nat), len + 2 ≤ stream.length →
        readData (len : Int) stream
          = .ok (stream.take len) (stream.drop (len + 2)))
    ∧ (∀ (payload : List Nat) (b1 b2 : Nat),
        readData (payload.length : Int) (payload ++ [b1, b2])
          = .ok payload []) := by
  constructor
  · intro len stream h
    exact readData_ok len stream h
  · intro payload b1 b2
    have hlen : payload.length + 2 ≤ (payload ++ [b1, b2]).length := by
      simp
    rw [readData_ok payload.length (payload ++ [b1, b2]) hlen]
    congr 1
    · exact List.take_left' rfl
    · have h2 : (payload ++ [b1, b2]).length ≤ payload.length + 2 := by simp
      exact List.drop_eq_nil_of_le h2

/-- Witness for C9 at a concrete stream with a non-CRLF trailer. -/
theorem readData_positional_strip_w :
    (3 + 2 ≤ (strBytes "abcXY").length
      ∧ readData ((3 : Nat) : Int) (strBytes "abcXY")
          = .ok ((strBytes "abcXY").take 3) ((strBytes "abcXY").drop (3 + 2)))
    ∧ readData ((([1, 2, 3] : List Nat).length : Nat) : Int) ([1, 2, 3] ++ [88, 89])
        = .ok [1, 2, 3] [] :=
  ⟨⟨by decide, readData_positional_strip.1 3 (strBytes "abcXY") (by decide)⟩,
   readData_positional_strip.2 [1, 2, 3] 88 89⟩

/-- C10: `readData` never panics for a non-negative declared length, and
for every negative declared length there is a stream on which it panics
(two available bytes suffice in every negative case); in particular
`Reserve` given the header `RESERVED 1 -1\r\n` with one available byte
panics rather than returning an error. -/
theorem readData_negative_panics :
    (∀ (len : Int) (stream : List Nat), 0 ≤ len →
        readData len stream ≠ .panicked)
    ∧ (∀ len : Int, len < 0 → readData len [0, 0] = .panicked)
    ∧ reserveHandle "RESERVED 1 -1\r\n" (strBytes "a") = .panicked := by
  refine ⟨?_, ?_, by decide⟩
  · intro len stream hge
    rw [readData, if_neg (by omega)]
    by_cases h2 : stream.length < (len + 2).toNat
    · simp [h2]
    · have h3 : ¬((len + 2).toNat < 2) := by omega
      simp [h2, h3]
  · intro len hlt
    by_cases h1 : len + 2 < 0
    · rw [readData, if_pos h1]
    · rw [readData, if_neg h1]
      have hsz : (len + 2).toNat < 2 := by omega
      have h2 : ¬(([0, 0] : List Nat).length < (len + 2).toNat) := by
        simp only [List.length_cons, List.length_nil]
        omega
      simp [h2, hsz]
      omega

/-- Witness for C10 at concrete lengths. -/
theorem readData_negative_panics_w :
    (0 ≤ (3 : Int) ∧ readData 3 (strBytes "abcde") ≠ .panicked)
    ∧ ((-1 : Int) < 0 ∧ readData (-1) [0, 0] = .panicked) :=
  ⟨⟨by decide, readData_negative_panics.1 3 (strBytes "abcde") (by decide)⟩,
   ⟨by decide, readData_negative_panics.2.1 (-1) (by decide)⟩⟩

/-- C1: `Put(P)` hands `sendAll` exactly the bytes
`put 2147483648 0 120 L\r\n` + `P` + `\r\n` (with `L` the payload
length in decimal); the reply `INSERTED <id>\r\n` yields `(id, nil)` and
the reply `BURIED <id>\r\n` yields `(id, errBuried)`. -/
theorem put_wire_and_replies (P : List Nat) (id : Nat) :
    putCommand P
      = strBytes "put 2147483648 0 120 " ++ strBytes (itoa P.length)
          ++ strBytes "\r\n" ++ P ++ strBytes "\r\n"
    ∧ putHandleResp ("INSERTED " ++ utoa id ++ "\r\n") = .inserted id
    ∧ putHandleResp ("BURIED " ++ utoa id ++ "\r\n") = .buried id := by
  refine ⟨?_, ?_, ?_⟩
  · show strBytes "put " ++ strBytes (utoa defaultPriority) ++ strBytes " 0 "
        ++ strBytes (utoa defaultTTR) ++ strBytes " " ++ strBytes (itoa P.length)
        ++ strBytes "\r\n" ++ P ++ strBytes "\r\n" = _
    have hp : utoa defaultPriority = "2147483648" := by decide
    have ht : utoa defaultTTR = "120" := by decide
    rw [hp, ht]
    simp [strBytes, List.append_assoc]
  · have hre : ("INSERTED " ++ utoa id ++ "\r\n" : String)
        = "INSERTED" ++ " " ++ utoa id ++ "\r\n" := by
      apply strExt
      simp [strData_append, List.append_assoc]
    have hdata : ("INSERTED " ++ utoa id ++ "\r\n").data
        = 'I' :: 'N' :: 'S' :: 'E' :: 'R' :: 'T' :: 'E' :: 'D' :: ' '
            :: ((utoa id).data ++ ['\r', '\n']) := by
      simp [strData_append, List.append_assoc]
    have hlead : leadsWith ("INSERTED " ++ utoa id ++ "\r\n") "IN" = true := by
      simp [leadsWith, hdata, stripLit]
    have hscan : scanU64After "INSERTED" ("INSERTED " ++ utoa id ++ "\r\n")
        = ⟨id, true⟩ := by
      rw [hre]
      exact scanU64After_roundtrip "INSERTED" id
    simp [putHandleResp, hlead, hscan]
  · have hreB : ("BURIED " ++ utoa id ++ "\r\n" : String)
        = "BURIED" ++ " " ++ utoa id ++ "\r\n" := by
      apply strExt
      simp [strData_append, List.append_assoc]
    have hdataB : ("BURIED " ++ utoa id ++ "\r\n").data
        = 'B' :: 'U' :: 'R' :: 'I' :: 'E' :: 'D' :: ' '
            :: ((utoa id).data ++ ['\r', '\n']) := by
      simp [strData_append, List.append_assoc]
    have hleadIN : leadsWith ("BURIED " ++ utoa id ++ "\r\n") "IN" = false := by
      simp [leadsWith, hdataB, stripLit]
    have hleadBU : leadsWith ("BURIED " ++ utoa id ++ "\r\n") "BU" = true := by
      simp [leadsWith, hdataB, stripLit]
    have hscanB : scanU64After "BURIED" ("BURIED " ++ utoa id ++ "\r\n")
        = ⟨id, true⟩ := by
      rw [hreB]
      exact scanU64After_roundtrip "BURIED" id
    simp [putHandleResp, hleadIN, hleadBU, hscanB]

/-- C2: a response `RESERVED <id> <len>\r\n` over a stream of at least
`len + 2` further bytes yields a Job with that id whose payload is the
first `len` stream bytes; exactly `len + 2` bytes are consumed and the
2-byte trailer is dropped. -/
theorem reserve_framing (id len : Nat) (stream : List Nat)
    (h : len + 2 ≤ stream.length) :
    reserveHandle ("RESERVED " ++ utoa id ++ " " ++ utoa len ++ "\r\n") stream
      = .ok ⟨id, stream.take len⟩ (stream.drop (len + 2)) := by
  have hdata : ("RESERVED " ++ utoa id ++ " " ++ utoa len ++ "\r\n").data
      = 'R' :: 'E' :: 'S' :: 'E' :: 'R' :: 'V' :: 'E' :: 'D' :: ' '
          :: ((utoa id).data ++ (' ' :: ((utoa len).data ++ ['\r', '\n']))) := by
    simp [strData_append, List.append_assoc]
  have hlead : leadsWith ("RESERVED " ++ utoa id ++ " " ++ utoa len ++ "\r\n")
      "RESERVED" = true := by
    simp [leadsWith, hdata, stripLit]
  have hrd := readData_ok len stream h
  simp [reserveHandle, hlead, scanReserved_roundtrip, hrd]

/-- Witness for C2 at the spec's example `RESERVED 5 3\r\nabc\r\n`. -/
theorem reserve_framing_w :
    3 + 2 ≤ (strBytes "abc\r\n").length
    ∧ reserveHandle ("RESERVED " ++ utoa 5 ++ " " ++ utoa 3 ++ "\r\n")
        (strBytes "abc\r\n")
        = .ok ⟨5, (strBytes "abc\r\n").take 3⟩ ((strBytes "abc\r\n").drop (3 + 2)) :=
  ⟨by decide, reserve_framing 5 3 (strBytes "abc\r\n") (by decide)⟩

/-- C5 counterexample: the error-table line `INTERNAL_ERROR\r\n` in reply
to a put is caught by the `"IN"` prefix dispatch, handed to the
`INSERTED %d` scanner, and comes back as a scan error with id 0 — not as
the semantic internal-error kind the claim requires. -/
theorem put_internal_error_cex :
    putHandleResp "INTERNAL_ERROR\r\n" = .scanFail 0
    ∧ putHandleResp "INTERNAL_ERROR\r\n"
        ≠ .classified BeanstalkError.internalError := by
  decide

/-- C5 (amended): the classifier is invoked exactly when a response line
fails the operation's dispatch check — for `Put` the prefixes `"IN"` and
`"BU"`, for `Kick` the prefix `"KICKED"`, for the literal-checked
operations equality with the expected line. Error-table lines that slip
past a prefix dispatch are not classified: `INTERNAL_ERROR\r\n` to `Put`
yields a scan error with id 0, while `BURIED\r\n` to `Put` lands in the
`"BU"` branch and yields the buried error. -/
theorem classifier_on_dispatch_miss :
    (∀ resp : String, leadsWith resp "IN" = false → leadsWith resp "BU" = false →
        putHandleResp resp = .classified (parseBeanstalkError resp))
    ∧ (∀ resp : String, leadsWith resp "KICKED" = false →
        kickHandleResp resp = .classified (parseBeanstalkError resp))
    ∧ (∀ expected resp : String, resp ≠ expected →
        checkResp expected resp = some (parseBeanstalkError resp))
    ∧ putHandleResp "INTERNAL_ERROR\r\n" = .scanFail 0
    ∧ putHandleResp "BURIED\r\n" = .buried 0 := by
  refine ⟨?_, ?_, ?_, by decide, by decide⟩
  · intro resp h1 h2
    simp [putHandleResp, h1, h2]
  · intro resp h
    simp [kickHandleResp, h]
  · intro expected resp h
    simp [checkResp, h]

/-- Witness for the amended C5 at concrete error-table lines. -/
theorem classifier_on_dispatch_miss_w :
    (leadsWith "DEADLINE_SOON\r\n" "IN" = false
      ∧ leadsWith "DEADLINE_SOON\r\n" "BU" = false
      ∧ putHandleResp "DEADLINE_SOON\r\n"
          = .classified (parseBeanstalkError "DEADLINE_SOON\r\n"))
    ∧ (leadsWith "TIMED_OUT\r\n" "KICKED" = false
      ∧ kickHandleResp "TIMED_OUT\r\n"
          = .classified (parseBeanstalkError "TIMED_OUT\r\n"))
    ∧ ("NOT_FOUND\r\n" ≠ ("DELETED\r\n" : String)
      ∧ checkResp "DELETED\r\n" "NOT_FOUND\r\n"
          = some (parseBeanstalkError "NOT_FOUND\r\n")) :=
  ⟨⟨by decide, by decide,
    classifier_on_dispatch_miss.1 "DEADLINE_SOON\r\n" (by decide) (by decide)⟩,
   ⟨by decide, classifier_on_dispatch_miss.2.1 "TIMED_OUT\r\n" (by decide)⟩,
   ⟨by decide,
    classifier_on_dispatch_miss.2.2.1 "DELETED\r\n" "NOT_FOUND\r\n" (by decide)⟩⟩

/-- C6: each exact-literal operation sends its documented command and
succeeds exactly on its documented literal response; any mismatch —
including a `USING` reply naming a different tube — yields the classified
error. -/
theorem exact_literal_ops (T : String) (id : Nat) (resp : String) :
    useCommand T = "use " ++ T ++ "\r\n"
    ∧ (useCheck T resp = none ↔ resp = "USING " ++ T ++ "\r\n")
    ∧ deleteCommand id = "delete " ++ utoa id ++ "\r\n"
    ∧ (checkResp "DELETED\r\n" resp = none ↔ resp = "DELETED\r\n")
    ∧ buryCommand id = "bury " ++ utoa id ++ " 2147483648\r\n"
    ∧ (checkResp "BURIED\r\n" resp = none ↔ resp = "BURIED\r\n")
    ∧ releaseCommand id = "release " ++ utoa id ++ " 2147483648 0\r\n"
    ∧ (checkResp "RELEASED\r\n" resp = none ↔ resp = "RELEASED\r\n")
    ∧ kickJobCommand id = "kick-job " ++ utoa id ++ "\r\n"
    ∧ (checkResp "KICKED\r\n" resp = none ↔ resp = "KICKED\r\n")
    ∧ (resp ≠ useExpected T → useCheck T resp = some (parseBeanstalkError resp)) := by
  have hp : utoa defaultPriority = "2147483648" := by decide
  have h0 : utoa 0 = "0" := by decide
  refine ⟨rfl, checkResp_none_iff _ _, rfl, checkResp_none_iff _ _, ?_,
    checkResp_none_iff _ _, ?_, checkResp_none_iff _ _, rfl,
    checkResp_none_iff _ _, ?_⟩
  · apply strExt
    simp [buryCommand, hp, strData_append, List.append_assoc]
  · apply strExt
    simp [releaseCommand, hp, h0, strData_append, List.append_assoc]
  · intro h
    simp [useCheck, checkResp, h]

/-- Witness for C6 at a concrete tube, id and mismatching response. -/
theorem exact_literal_ops_w :
    "NOT_FOUND\r\n" ≠ useExpected "mytube"
    ∧ useCheck "mytube" "NOT_FOUND\r\n"
        = some (parseBeanstalkError "NOT_FOUND\r\n") :=
  ⟨by decide,
   (exact_literal_ops "mytube" 7 "NOT_FOUND\r\n").2.2.2.2.2.2.2.2.2.2 (by decide)⟩

/-- C7: framing a payload through Put's encoder (declared length `|P|`,
payload bytes, 2-byte terminator) and parsing those bytes back through
the reservation payload reader with declared length `|P|` returns exactly
the original payload, unchanged. -/
theorem put_reserve_roundtrip (P rest : List Nat) :
    putCommand P
      = (strBytes "put 2147483648 0 120 " ++ strBytes (itoa P.length)
          ++ strBytes "\r\n") ++ (P ++ strBytes "\r\n")
    ∧ readData ((P.length : Nat) : Int) (P ++ strBytes "\r\n" ++ rest)
        = .ok P rest := by
  constructor
  · show strBytes "put " ++ strBytes (utoa defaultPriority) ++ strBytes " 0 "
        ++ strBytes (utoa defaultTTR) ++ strBytes " " ++ strBytes (itoa P.length)
        ++ strBytes "\r\n" ++ P ++ strBytes "\r\n" = _
    have hp : utoa defaultPriority = "2147483648" := by decide
    have ht : utoa defaultTTR = "120" := by decide
    rw [hp, ht]
    simp [strBytes, List.append_assoc]
  · have hlen2 : (strBytes "\r\n").length = 2 := by decide
    have hlen : P.length + 2 ≤ (P ++ strBytes "\r\n" ++ rest).length := by
      simp [List.length_append, hlen2]
    rw [readData_ok P.length _ hlen]
    congr 1
    · rw [List.append_assoc]
      exact List.take_left' rfl
    · have h2 : (P ++ strBytes "\r\n").length = P.length + 2 := by
        simp [List.length_append, hlen2]
      rw [List.drop_left' h2]

/-- C8: `Close()` first attempts the quit command, then closes the socket
when a connection exists (logging, not raising, any close failure), and
surfaces no error to its caller in any case. -/
theorem close_quiet (connPresent : Bool) (quitOuts : List WriteOut)
    (closeErr : Option WErr) :
    (closeModel connPresent quitOuts closeErr).2 = none
    ∧ (closeModel connPresent quitOuts closeErr).1.head? = some .quitAttempt
    ∧ (connPresent = true →
        (closeModel connPresent quitOuts closeErr).1
          = .quitAttempt :: .socketClosed
              :: (if closeErr.isSome then [CloseStep.warnLogged] else [])) := by
  cases connPresent <;> cases closeErr <;> simp [closeModel]

/-- Witness for C8 with a present connection and a failing close. -/
theorem close_quiet_w :
    true = true
    ∧ (closeModel true [] (some ⟨false, false⟩)).1
        = .quitAttempt :: .socketClosed
            :: (if (some (⟨false, false⟩ : WErr)).isSome
                then [CloseStep.warnLogged] else []) :=
  ⟨rfl, (close_quiet true [] (some ⟨false, false⟩)).2.2 rfl⟩

